import Mathlib

/-!
Verification of the `riscv-on-rust` RV32I simulator against its
natural-language specification.  Each Rust function relevant to a claim is
shallowly embedded as an executable Lean definition; machine integers
become `Nat` with explicit `% 2^w` where wrapping matters, and code paths
that panic in Rust become `Option`-valued definitions returning `none`.
-/

set_option maxRecDepth 8192

namespace RiscvOnRust

/-! ## PipelineData typed accessors (src/risc_soc/pipeline_stage.rs)

A `PipelineData` is a byte vector; bytes are modelled as `Nat` values
below 256.  The Rust accessors loop over the bytes and OR them into an
accumulator shifted by the loop index `i` (the source shifts by `i`,
not by `8 * i`). -/

def get_u8 (p : List Nat) (address : Nat) : Nat :=
  p.getD address 0

def get_u16 (p : List Nat) (address : Nat) : Nat :=
  (List.range 2).foldl (fun value i => value ||| (p.getD (address + i) 0) <<< i) 0

def get_u32 (p : List Nat) (address : Nat) : Nat :=
  (List.range 4).foldl (fun value i => value ||| (p.getD (address + i) 0) <<< i) 0

def get_u64 (p : List Nat) (address : Nat) : Nat :=
  (List.range 8).foldl (fun value i => value ||| (p.getD (address + i) 0) <<< i) 0

/-- Modelled from the spec: the little-endian value of `n` bytes of `p`
starting at byte offset `address` (`p[a] | p[a+1]<<8 | p[a+2]<<16 | ...`).
This is the reference the accessors are compared against. -/
def spec_le_value (p : List Nat) (address n : Nat) : Nat :=
  (List.range n).foldl (fun value i => value ||| (p.getD (address + i) 0) <<< (8 * i)) 0

/-- C1: the claim states that `get_u32` returns the little-endian 32-bit
value `p[a] | p[a+1]<<8 | p[a+2]<<16 | p[a+3]<<24` (and `get_u16`/`get_u64`
the analogous 16/64-bit values).  The source shifts each byte by the loop
index `i` instead of `8 * i`, so on the byte vector `[0, 1, 0, 0]` at
offset `0` the code yields `0 ||| 1 <<< 1 = 2` while the little-endian
value is `256`; `get_u16` and `get_u64` diverge on the same input shape.
This theorem evaluates the embedded code at that failing input. -/
theorem c1_accessors_not_little_endian :
    get_u32 [0, 1, 0, 0] 0 = 2 ∧
    spec_le_value [0, 1, 0, 0] 0 4 = 256 ∧
    get_u16 [0, 1] 0 = 2 ∧
    spec_le_value [0, 1] 0 2 = 256 ∧
    get_u64 [0, 1, 0, 0, 0, 0, 0, 0] 0 = 2 ∧
    spec_le_value [0, 1, 0, 0, 0, 0, 0, 0] 0 8 = 256 ∧
    (2 : Nat) ≠ 256 := by
  decide

/-! ## Wire timeout path (src/risc_soc/wire.rs)

When a critical-path bound is configured and `Wire::read` times out, the
source builds a 256-element byte vector whose entries are fresh hasher
outputs reduced `% 255`, and returns it.  The nondeterministic hasher
outputs are abstracted as a generator `gen : Nat → Nat` supplying the
raw value for each of the 256 positions. -/

def wire_read_timeout_data (gen : Nat → Nat) : List Nat :=
  (List.range 256).map (fun i => gen i % 255)

/-- C7 counterexample: the claim states that a timed-out `Wire::read`
returns an *empty* `PipelineData`.  The source instead returns a
256-byte vector; with the generator constantly `0` the returned data is
`[0, 0, …]` of length 256, which is not empty. -/
theorem c7_timeout_data_not_empty :
    (wire_read_timeout_data (fun _ => 0)).length = 256 ∧
    wire_read_timeout_data (fun _ => 0) ≠ [] := by
  decide

/-- C7 (amended): if `Wire::read` times out waiting for the slot it does
not block further; it emits a warn and returns a 256-byte `PipelineData`
of pseudo-random bytes, each reduced modulo 255 — not an empty one. -/
theorem c7_timeout_returns_256_bytes (gen : Nat → Nat) :
    (wire_read_timeout_data gen).length = 256 ∧
    ∀ b ∈ wire_read_timeout_data gen, b < 255 := by
  constructor
  · simp [wire_read_timeout_data]
  · intro b hb
    simp only [wire_read_timeout_data, List.mem_map] at hb
    obtain ⟨i, _, rfl⟩ := hb
    exact Nat.mod_lt _ (by norm_num)

/-- C7 witness: the amended theorem at the identity generator. -/
theorem c7_timeout_returns_256_bytes_witness :
    (wire_read_timeout_data (fun i => i)).length = 256 ∧
    ∀ b ∈ wire_read_timeout_data (fun i => i), b < 255 :=
  c7_timeout_returns_256_bytes (fun i => i)

/-! ## Register file (src/risc_soc/risc_soc.rs, `Registers`)

32 architectural registers; `write_reg` asserts the index is below 32
(captured by the `Fin 32` index type) and stores only when the index is
strictly positive. -/

def write_reg (regs : Fin 32 → Nat) (rd_address : Fin 32) (rd : Nat) :
    Fin 32 → Nat :=
  if 0 < rd_address.val then Function.update regs rd_address rd else regs

def read_regs (regs : Fin 32 → Nat) (rs1_address rs2_address : Fin 32) :
    Nat × Nat :=
  (regs rs1_address, regs rs2_address)

def regs_init : Fin 32 → Nat := fun _ => 0

def apply_writes (regs : Fin 32 → Nat) (ops : List (Fin 32 × Nat)) :
    Fin 32 → Nat :=
  ops.foldl (fun r op => write_reg r op.1 op.2) regs

theorem write_reg_preserves_x0 (regs : Fin 32 → Nat) (rd : Fin 32) (w : Nat) :
    write_reg regs rd w 0 = regs 0 := by
  unfold write_reg
  by_cases h : 0 < rd.val
  · rw [if_pos h]
    have hne : (0 : Fin 32) ≠ rd := by
      intro he
      rw [← he] at h
      simp at h
    exact Function.update_noteq hne w regs
  · rw [if_neg h]

/-- C6: register x0 always reads as 0: `write_reg 0 w` is a no-op for
every value `w`, any single register write leaves register 0 unchanged,
and after any sequence of register writes starting from the reset state
a read of register 0 still returns 0. -/
theorem c6_x0_invariant :
    (∀ (regs : Fin 32 → Nat) (w : Nat), write_reg regs 0 w = regs) ∧
    (∀ (regs : Fin 32 → Nat) (ops : List (Fin 32 × Nat)),
      apply_writes regs ops 0 = regs 0) ∧
    (∀ (ops : List (Fin 32 × Nat)) (rs2 : Fin 32),
      (read_regs (apply_writes regs_init ops) 0 rs2).1 = 0) := by
  have hstep : ∀ (regs : Fin 32 → Nat) (rd : Fin 32) (w : Nat),
      write_reg regs rd w 0 = regs 0 := write_reg_preserves_x0
  have hfold : ∀ (ops : List (Fin 32 × Nat)) (regs : Fin 32 → Nat),
      apply_writes regs ops 0 = regs 0 := by
    intro ops
    induction ops with
    | nil => intro regs; rfl
    | cons op rest ih =>
      intro regs
      show apply_writes (write_reg regs op.1 op.2) rest 0 = regs 0
      rw [ih, hstep]
  refine ⟨?_, fun regs ops => hfold ops regs, ?_⟩
  · intro regs w
    unfold write_reg
    rw [if_neg (by simp)]
  · intro ops rs2
    show (apply_writes regs_init ops) 0 = 0
    rw [hfold]
    rfl

/-! ## 32-bit two's-complement helpers

`toI32` reads a `u32` value as a Rust `i32`; `toU32` casts an `Int` back
to the `u32` bit pattern.  The `checked` operations return `none` where
the Rust source would hit an arithmetic-overflow panic: a signed
addition or subtraction leaving the `i32` range, or a shift amount of
32 or more (Rust primitive shifts do not mask the shift amount). -/

def toI32 (n : Nat) : Int :=
  if n % 2 ^ 32 < 2 ^ 31 then ((n % 2 ^ 32 : Nat) : Int)
  else ((n % 2 ^ 32 : Nat) : Int) - 2 ^ 32

def toU32 (i : Int) : Nat :=
  (i % 2 ^ 32).toNat

def i32_checked_add (a b : Int) : Option Int :=
  if -2 ^ 31 ≤ a + b ∧ a + b < 2 ^ 31 then some (a + b) else none

def i32_checked_sub (a b : Int) : Option Int :=
  if -2 ^ 31 ≤ a - b ∧ a - b < 2 ^ 31 then some (a - b) else none

def u32_checked_add (a b : Nat) : Option Nat :=
  if a + b < 2 ^ 32 then some (a + b) else none

def u32_checked_shl (a b : Nat) : Option Nat :=
  if b < 32 then some ((a <<< b) % 2 ^ 32) else none

def u32_checked_shr (a b : Nat) : Option Nat :=
  if b < 32 then some (a >>> b) else none

/-- `rs1 as i32 >> sh` for a `u32` operand: arithmetic right shift, i.e.
flooring division of the signed reading by `2 ^ sh`; `none` when the
shift amount is 32 or more (Rust shift-overflow panic). -/
def i32_checked_sra (a sh : Nat) : Option Nat :=
  if sh < 32 then some (toU32 ((toI32 a).fdiv (2 ^ sh))) else none

/-! ## Decode stage (src/rv32i_baremetal/decode.rs) -/

def OP_LUI : Nat := 0b0110111
def OP_AUIPC : Nat := 0b0010111
def OP_JAL : Nat := 0b1101111
def OP_JALR : Nat := 0b1100111
def OP_BRANCH : Nat := 0b1100011
def OP_LOAD : Nat := 0b0000011
def OP_STORE : Nat := 0b0100011
def OP_ALU : Nat := 0b0110011
def OP_ALUI : Nat := 0b0010011

/-- I-type immediate (`OP_ALUI | OP_LOAD | OP_JALR`): arithmetic right
shift of the 32-bit instruction by 20 (`OPCODE_L + FUNCT_3L + 2*REG_L`),
read back as a `u32`. -/
def decode_imm_i (instruction : Nat) : Nat :=
  toU32 ((toI32 instruction).fdiv (2 ^ 20))

/-- U-type immediate (`OP_AUIPC | OP_LUI`): the source keeps
`instruction & 0xFFF`, the low 12 bits of the encoding. -/
def decode_imm_u (instruction : Nat) : Nat :=
  instruction &&& 0xFFF

/-! ## Execute stage ALU (src/rv32i_baremetal/execute.rs)

The `alu_out` computation of `rv32_mcu_execute_stage`, one branch per
source branch.  Branches of the Rust `match` that leave `alu_out` at its
initialisation value produce `some 0`. -/

def execute_alu_out (opcode func3 func7 imm rs1 rs2 pc : Nat) : Option Nat :=
  if opcode = OP_ALU then
    if func3 = 0b000 ∧ func7 = 0b0 then
      (i32_checked_add (toI32 rs1) (toI32 rs2)).map toU32
    else if func3 = 0b000 ∧ func7 = 0b0100000 then
      (i32_checked_sub (toI32 rs1) (toI32 rs2)).map toU32
    else if func3 = 0b001 then u32_checked_shl rs1 rs2
    else if func3 = 0b010 then some (if toI32 rs1 < toI32 rs2 then 1 else 0)
    else if func3 = 0b011 then some (if rs1 < rs2 then 1 else 0)
    else if func3 = 0b100 then some ((rs1 ^^^ rs2) % 2 ^ 32)
    else if func3 = 0b101 ∧ func7 = 0b0 then u32_checked_shr rs1 rs2
    else if func3 = 0b101 ∧ func7 = 0b0100000 then i32_checked_sra rs1 rs2
    else if func3 = 0b110 then some ((rs1 ||| rs2) % 2 ^ 32)
    else if func3 = 0b111 then some ((rs1 &&& rs2) % 2 ^ 32)
    else some 0
  else if opcode = OP_ALUI then
    if func3 = 0b000 then
      (i32_checked_add (toI32 rs1) (toI32 imm)).map toU32
    else if func3 = 0b001 then u32_checked_shl rs1 imm
    else if func3 = 0b010 then some (if toI32 rs1 < toI32 imm then 1 else 0)
    else if func3 = 0b011 then some (if rs1 < imm then 1 else 0)
    else if func3 = 0b100 then some ((rs1 ^^^ imm) % 2 ^ 32)
    else if func3 = 0b101 ∧ func7 = 0b0 then u32_checked_shr rs1 imm
    else if func3 = 0b101 ∧ func7 = 0b0100000 then i32_checked_sra rs1 imm
    else if func3 = 0b110 then some ((rs1 ||| imm) % 2 ^ 32)
    else if func3 = 0b111 then some ((rs1 &&& imm) % 2 ^ 32)
    else some 0
  else if opcode = OP_JAL then u32_checked_add pc 4
  else if opcode = OP_JALR then u32_checked_add pc 4
  else if opcode = OP_LOAD ∨ opcode = OP_STORE then
    (i32_checked_add (toI32 rs1) (toI32 imm)).map toU32
  else if opcode = OP_BRANCH then some 0
  else if opcode = OP_LUI then some imm
  else if opcode = OP_AUIPC then
    (i32_checked_add (toI32 pc) (toI32 imm)).map toU32
  else some 0

/-- C2: the claim states that for LUI the EX stage produces
`alu_out = imm <<< 12` and for AUIPC `alu_out = pc + (imm <<< 12)`.
The source (`execute.rs`, `OP_LUI`/`OP_AUIPC` arms) omits the `<<< 12`
entirely: for the LUI encoding `0x000010B7` decode retains
`imm = 0xB7` and EX emits `0xB7`, not `0xB7000`; for AUIPC with
`pc = 0x80000000` EX emits `0x800000B7`, not `0x800B7000`.  This theorem
evaluates the embedded decode and execute at those failing inputs. -/
theorem c2_lui_auipc_shift_missing :
    decode_imm_u 0x000010B7 = 0xB7 ∧
    execute_alu_out OP_LUI 0 0 0xB7 0 0 0x80000000 = some 0xB7 ∧
    (0xB7 : Nat) <<< 12 = 0xB7000 ∧
    (0xB7 : Nat) ≠ 0xB7000 ∧
    execute_alu_out OP_AUIPC 0 0 0xB7 0 0 0x80000000 = some 0x800000B7 ∧
    (0x80000000 + ((0xB7 : Nat) <<< 12)) % 2 ^ 32 = 0x800B7000 ∧
    (0x800000B7 : Nat) ≠ 0x800B7000 := by
  decide

/-- C8: the claim states that SLL/SRL/SRA and SLLI/SRLI/SRAI use only the
low 5 bits of `rs2` (resp. of the immediate), so the result is
well-defined for every 32-bit shift operand.  The source uses the full
value in a Rust primitive shift, which panics for amounts ≥ 32 instead
of masking: SLL with `rs2 = 32` panics (`none`) where the claim
predicts `rs1 <<< 0 = rs1`, and SRAI — whose I-type immediate always
contains the `func7 = 0b0100000` bits, e.g. `imm = 0x401` for encoding
`0x40105093` (`srai x1, x0, 1`) — always panics where the claim
predicts an arithmetic shift by `imm &&& 0x1F`. -/
theorem c8_shift_amount_not_masked :
    execute_alu_out OP_ALU 0b001 0 0 1 32 0 = none ∧
    (32 : Nat) &&& 0x1F = 0 ∧
    decode_imm_i 0x40105093 = 0x401 ∧
    execute_alu_out OP_ALUI 0b101 0b0100000 0x401 0x80000000 0 0 = none ∧
    (0x401 : Nat) &&& 0x1F = 1 := by
  decide

/-! ## Program-counter advance per cycle (src/rv32i_baremetal/fetch.rs and
src/risc_soc/risc_soc.rs `RiscCore::run`)

On a cycle without a branch redirect the fetch process function ends
with `set_pc(current_pc + 4)` (fetch.rs line 47); after the falling
clock edge the orchestrator, for stage index 0 with RESET deasserted
and ENABLE set, performs `set_pc(get_pc() + 4)` again
(risc_soc.rs lines 363–365).  Both stores go through the shared PC,
truncated to 32 bits. -/

def fetch_stage_pc_update (current_pc : Nat) : Nat :=
  (current_pc + 4) % 2 ^ 32

def orchestrator_pc_advance (pc : Nat) : Nat :=
  (pc + 4) % 2 ^ 32

def straight_line_cycle_pc (pc : Nat) : Nat :=
  orchestrator_pc_advance (fetch_stage_pc_update pc)

/-- C3: the claim states that on straight-line code the PC advances by
exactly 4 per cycle, the advance being performed once per cycle by the
orchestrator.  In the source the fetch stage itself also advances the
PC, so one cycle moves the PC by 8: the fetch function stores
`current_pc + 4` and the orchestrator then stores `get_pc() + 4` on
top of it. -/
theorem c3_pc_advances_by_8_per_cycle (pc : Nat) (h : pc + 8 < 2 ^ 32) :
    straight_line_cycle_pc pc = pc + 8 ∧ straight_line_cycle_pc pc ≠ pc + 4 := by
  have h1 : fetch_stage_pc_update pc = pc + 4 := by
    unfold fetch_stage_pc_update
    exact Nat.mod_eq_of_lt (by omega)
  have h2 : straight_line_cycle_pc pc = pc + 8 := by
    unfold straight_line_cycle_pc orchestrator_pc_advance
    rw [h1]
    have : pc + 4 + 4 = pc + 8 := by omega
    rw [this]
    exact Nat.mod_eq_of_lt h
  exact ⟨h2, by omega⟩

/-- C3 witness: one cycle starting from the reset PC `0x80000000` leaves
the PC at `0x80000008`. -/
theorem c3_pc_advances_by_8_per_cycle_witness :
    0x80000000 + 8 < 2 ^ 32 ∧
    (straight_line_cycle_pc 0x80000000 = 0x80000000 + 8 ∧
     straight_line_cycle_pc 0x80000000 ≠ 0x80000000 + 4) :=
  ⟨by decide, c3_pc_advances_by_8_per_cycle 0x80000000 (by decide)⟩

/-! ## Memory model types (src/risc_soc/memory_management_unit.rs) -/

inductive MemoryResponseType where
  | CacheHit : MemoryResponseType
  | CacheMiss : MemoryResponseType
  | Valid : MemoryResponseType
  | InvalidAddress : MemoryResponseType
  | UnalignedAddress : MemoryResponseType
  | NotWrittable : MemoryResponseType
  | NotReadable : MemoryResponseType
  | NotExecutable : MemoryResponseType
  | WrongMemoryMap : MemoryResponseType
  deriving DecidableEq

structure MemoryResponse where
  data : List Nat
  status : MemoryResponseType
  deriving DecidableEq

structure CacheResponse where
  cache_line : List Nat
  index : Nat
  tag : Nat
  status : MemoryResponseType
  deriving DecidableEq

/-! ## MCUCache — direct-mapped on-chip memory
(src/rv32i_baremetal/mcu_cache.rs)

`data` is the array of cache lines.  Addresses are virtual; the device
subtracts `start_address`.  Rust panics (vector index out of range,
assertion failures) are modelled by `Option` results. -/

structure MCUCache where
  data : List (List Nat)
  line_size : Nat
  num_lines : Nat
  start_address : Nat
  end_address : Nat
  deriving DecidableEq

/-- `MCUCache::translate_address`: out of `[start, end]` gives
`WrongMemoryMap`; otherwise `CacheHit` with the line index of the
offset `address - start_address`. -/
def translate_address (c : MCUCache) (address : Nat) : CacheResponse :=
  if c.end_address < address ∨ address < c.start_address then
    ⟨[], 0, 0, .WrongMemoryMap⟩
  else
    ⟨[], (address - c.start_address) / c.line_size, 0, .CacheHit⟩

/-- `MCUCache::load_data`: on a hit, copy the `line_size` bytes of the
addressed line into the response; `none` models the index-out-of-range
panic when the line does not exist. -/
def load_data (c : MCUCache) (address : Nat) : Option CacheResponse :=
  if (translate_address c address).status = .CacheHit then
    match c.data.get? (translate_address c address).index with
    | some line =>
        if c.line_size ≤ line.length then
          some { translate_address c address with cache_line := line.take c.line_size }
        else none
    | none => none
  else some (translate_address c address)

/-- `MCUCache::read_request`: start from `data_size` zero bytes, and on a
hit overwrite them from the cache line at
`byte_index = (address - start) % line_size`; `none` models the
index-out-of-range panic when `byte_index + size` runs past the line. -/
def read_request (c : MCUCache) (address size : Nat) : Option MemoryResponse :=
  match load_data c address with
  | none => none
  | some cr =>
      if cr.status = .CacheHit then
        if (address - c.start_address) % c.line_size + size ≤ cr.cache_line.length then
          some ⟨(List.range size).map
                  (fun i => cr.cache_line.getD ((address - c.start_address) % c.line_size + i) 0),
                .CacheHit⟩
        else none
      else some ⟨List.replicate size 0, cr.status⟩

/-- The write loop of `MCUCache::store_data`: byte `i` of `data` goes to
position `byte_index + i` of the line. -/
def write_bytes (line : List Nat) (byte_index : Nat) (data : List Nat) : List Nat :=
  (List.range data.length).foldl (fun l i => l.set (byte_index + i) (data.getD i 0)) line

/-- `MCUCache::store_data`: on a hit, reject with `UnalignedAddress` when
`address - start + data.len() - 1 ≥ index + line_size` (note: the source
compares the byte offset with the *line index* plus the line size), and
otherwise write the bytes at `byte_index = address % line_size` into the
addressed line; `none` models the index-out-of-range panic. -/
def store_data (c : MCUCache) (address : Nat) (data : List Nat) :
    Option (MCUCache × CacheResponse) :=
  if (translate_address c address).status = .CacheHit then
    if (translate_address c address).index + c.line_size ≤
        address - c.start_address + data.length - 1 then
      some (c, { translate_address c address with index := 0, status := .UnalignedAddress })
    else
      match c.data.get? (translate_address c address).index with
      | some line =>
          if address % c.line_size + data.length ≤ line.length then
            some ({ c with data := (c.data.set (translate_address c address).index
                      (write_bytes line (address % c.line_size) data)) },
                  translate_address c address)
          else none
      | none => none
  else some (c, translate_address c address)

/-- The WRITE path of `MCUCache::send_data_request`: panics (`none`) on a
missing or too-short data vector, truncates the data to the requested
size, stores it, and returns a response with empty data and the store
status. -/
def send_data_request_write (c : MCUCache) (address size : Nat)
    (data : Option (List Nat)) : Option (MCUCache × MemoryResponse) :=
  match data with
  | none => none
  | some d =>
      if d.length = 0 ∨ d.length < size then none
      else
        let d2 := if size < d.length then d.take size else d
        match store_data c address d2 with
        | none => none
        | some (c2, cr) => some (c2, ⟨[], cr.status⟩)

/-- Well-formedness established by `MCUCache::new_with_lines`: a positive
line size, `num_lines` lines of exactly `line_size` bytes, and an end
address covering `line_size * num_lines` bytes from the start. -/
def MCUCache.wf (c : MCUCache) : Prop :=
  0 < c.line_size ∧
  c.data.length = c.num_lines ∧
  (∀ line ∈ c.data, line.length = c.line_size) ∧
  c.end_address = c.start_address + c.line_size * c.num_lines

/-- A 2-line, 4-bytes-per-line cache at base 0, used as the concrete
instance for the C4 theorems. -/
def c4_cache : MCUCache :=
  ⟨[[0, 0, 0, 0], [0, 0, 0, 0]], 4, 2, 0, 8⟩

/-- C4 counterexample: the claim states that a misaligned access spanning
two cache lines yields an `UnalignedAddress` response with empty data
for READ as well as WRITE requests.  For the READ request of 4 bytes at
address 2 of `c4_cache` (bytes 2–5 span lines 0 and 1) the source
instead panics indexing past the end of the cache line — the embedded
`read_request` returns `none`, not an `UnalignedAddress` response. -/
theorem c4_spanning_read_panics :
    read_request c4_cache 2 4 = none ∧
    read_request c4_cache 2 4 ≠ some ⟨[], .UnalignedAddress⟩ := by
  decide

/-- C4 (amended): for every in-range request on a well-formed `MCUCache`
whose byte range `[address, address + size)` spans two cache lines, a
WRITE returns `UnalignedAddress` with empty data and leaves the cache
unchanged, while a READ panics (no response) instead of reporting
`UnalignedAddress`. -/
theorem c4_spanning_access (c : MCUCache) (address size : Nat)
    (hwf : c.wf)
    (hlo : c.start_address ≤ address) (hhi : address < c.end_address)
    (hspan : c.line_size < (address - c.start_address) % c.line_size + size) :
    (∀ d : List Nat, size ≤ d.length →
        send_data_request_write c address size (some d) =
          some (c, ⟨[], .UnalignedAddress⟩)) ∧
    read_request c address size = none := by
  obtain ⟨hL, hlen, hlines, hend⟩ := hwf
  have hhit : translate_address c address =
      ⟨[], (address - c.start_address) / c.line_size, 0, .CacheHit⟩ := by
    unfold translate_address
    rw [if_neg (by omega)]
  have hbL : (address - c.start_address) % c.line_size < c.line_size :=
    Nat.mod_lt _ hL
  have hsize2 : 2 ≤ size := by omega
  have hdecomp : c.line_size * ((address - c.start_address) / c.line_size)
      + (address - c.start_address) % c.line_size = address - c.start_address :=
    Nat.div_add_mod _ _
  have hqle : (address - c.start_address) / c.line_size
      ≤ c.line_size * ((address - c.start_address) / c.line_size) :=
    Nat.le_mul_of_pos_left _ hL
  -- the buggy source check fires on every spanning request
  have hcheck : (address - c.start_address) / c.line_size + c.line_size
      ≤ address - c.start_address + size - 1 := by omega
  have hoffrange : address - c.start_address < c.line_size * c.num_lines := by
    omega
  have hidx : (address - c.start_address) / c.line_size < c.data.length := by
    rw [hlen]
    exact (Nat.div_lt_iff_lt_mul hL).mpr (by rw [Nat.mul_comm]; exact hoffrange)
  have hline : c.data.get? ((address - c.start_address) / c.line_size) =
      some (c.data.get ⟨(address - c.start_address) / c.line_size, hidx⟩) :=
    List.get?_eq_get hidx
  have hlinelen :
      (c.data.get ⟨(address - c.start_address) / c.line_size, hidx⟩).length
        = c.line_size :=
    hlines _ (List.get_mem c.data _ _)
  constructor
  · intro d hd
    have hd2len : (if size < d.length then d.take size else d).length = size := by
      by_cases hc : size < d.length
      · rw [if_pos hc, List.length_take]
        omega
      · rw [if_neg hc]
        omega
    have hstore : store_data c address (if size < d.length then d.take size else d) =
        some (c, ⟨[], 0, 0, .UnalignedAddress⟩) := by
      unfold store_data
      rw [hhit]
      dsimp only
      rw [if_pos rfl, if_pos (by rw [hd2len]; exact hcheck)]
    unfold send_data_request_write
    dsimp only
    rw [if_neg (by omega)]
    show (match store_data c address (if size < d.length then d.take size else d) with
          | none => none
          | some (c2, cr) => some (c2, (⟨[], cr.status⟩ : MemoryResponse))) =
        some (c, ⟨[], .UnalignedAddress⟩)
    rw [hstore]
  · unfold read_request load_data
    rw [hhit]
    dsimp only
    rw [if_pos rfl, hline]
    dsimp only
    rw [if_pos (le_of_eq hlinelen.symm)]
    dsimp only
    rw [if_pos rfl]
    rw [if_neg (by
      rw [List.length_take, hlinelen]
      omega)]

/-- C4 witness: the amended spanning-access theorem applied to the
concrete cache `c4_cache` at address 2 with a 4-byte WRITE/READ. -/
theorem c4_spanning_access_witness :
    c4_cache.wf ∧
    (send_data_request_write c4_cache 2 4 (some [1, 2, 3, 4]) =
        some (c4_cache, ⟨[], .UnalignedAddress⟩) ∧
      read_request c4_cache 2 4 = none) :=
  ⟨⟨by decide, by decide, by decide, by decide⟩,
   (c4_spanning_access c4_cache 2 4 ⟨by decide, by decide, by decide, by decide⟩
      (by decide) (by decide) (by decide)).1 [1, 2, 3, 4] (by decide),
   (c4_spanning_access c4_cache 2 4 ⟨by decide, by decide, by decide, by decide⟩
      (by decide) (by decide) (by decide)).2⟩

/-- A 2-line, 64-bytes-per-line cache at base `0x8000_0000` (the source's
default line size), used as the concrete instance for C5. -/
def c5_cache : MCUCache :=
  ⟨[List.replicate 64 0, List.replicate 64 0], 64, 2, 0x80000000, 0x80000000 + 64 * 2⟩

/-- C5: the claim states that for every WORD-aligned in-range address a
WORD write followed by a WORD read returns the written bytes.  The
source's unaligned check in `store_data` compares the byte offset
`address - start + data.len() - 1` against `index + line_size`, where
`index` is a *line index*, not a byte offset; for the aligned address
`0x8000_0040` (offset 64, line 1) it computes `64 + 4 - 1 = 67 ≥ 1 + 64
= 65` and wrongly rejects the write with `UnalignedAddress`, storing
nothing, so the subsequent read returns the original zeros instead of
the written bytes.  This theorem evaluates the embedded code at that
failing input. -/
theorem c5_aligned_write_rejected :
    (0x80000040 : Nat) % 4 = 0 ∧
    c5_cache.start_address ≤ 0x80000040 ∧
    (0x80000040 : Nat) < c5_cache.end_address ∧
    send_data_request_write c5_cache 0x80000040 4 (some [0xEF, 0xBE, 0xAD, 0xDE]) =
      some (c5_cache, ⟨[], .UnalignedAddress⟩) ∧
    read_request c5_cache 0x80000040 4 = some ⟨[0, 0, 0, 0], .CacheHit⟩ ∧
    ([0, 0, 0, 0] : List Nat) ≠ [0xEF, 0xBE, 0xAD, 0xDE] := by
  decide

/-! ## Memory-device types and the MMU device registry
(src/risc_soc/memory_management_unit.rs)

The Rust enum derives `PartialOrd`, so the ordering is declaration
order; `MemoryDeviceType.toNat` realises it. -/

inductive MemoryDeviceType where
  | L1ICACHE : MemoryDeviceType
  | L1DCACHE : MemoryDeviceType
  | L2CACHE : MemoryDeviceType
  | LLCACHE : MemoryDeviceType
  | MROM : MemoryDeviceType
  | DRAM : MemoryDeviceType
  | FLASH : MemoryDeviceType
  | UART0 : MemoryDeviceType
  | DEBUG : MemoryDeviceType
  | IOMMU : MemoryDeviceType
  deriving DecidableEq

def MemoryDeviceType.toNat : MemoryDeviceType → Nat
  | .L1ICACHE => 0
  | .L1DCACHE => 1
  | .L2CACHE => 2
  | .LLCACHE => 3
  | .MROM => 4
  | .DRAM => 5
  | .FLASH => 6
  | .UART0 => 7
  | .DEBUG => 8
  | .IOMMU => 9

/-- A registered memory device, reduced to the data
`add_memory_device` inspects: its type and its address range. -/
structure MemDev where
  mem_type : MemoryDeviceType
  start_address : Nat
  end_address : Nat
  deriving DecidableEq

/-- `MemoryManagementUnit::add_memory_device`: `none` models the three
panics — duplicate device type, type below `L2CACHE`, and, for mapped
device types above `LLCACHE`, an existing mapped device whose range
`[start, end]` contains the *start* address of the new device.  On
success the device is appended to the registry. -/
def add_memory_device (memmap : List MemDev) (d : MemDev) : Option (List MemDev) :=
  if ∃ m ∈ memmap, m.mem_type = d.mem_type then none
  else if d.mem_type.toNat < MemoryDeviceType.L2CACHE.toNat then none
  else if d.mem_type.toNat > MemoryDeviceType.LLCACHE.toNat ∧
      ∃ m ∈ memmap, m.mem_type.toNat > MemoryDeviceType.LLCACHE.toNat ∧
        d.start_address ≥ m.start_address ∧ d.start_address ≤ m.end_address then none
  else some (memmap ++ [d])

/-- Two half-open address ranges overlap. -/
def ranges_overlap (a b : MemDev) : Prop :=
  max a.start_address b.start_address < min a.end_address b.end_address

def c9_dram : MemDev := ⟨.DRAM, 1000, 2000⟩

def c9_flash : MemDev := ⟨.FLASH, 500, 1500⟩

/-- C9 counterexample: the claim states that `add_memory_device` rejects
every mapped device whose range overlaps an already-registered mapped
device in either direction, keeping the ranges pairwise disjoint.  The
source only tests whether the *new* device's start address falls inside
an existing range: registering DRAM `[1000, 2000)` and then FLASH
`[500, 1500)` succeeds even though the two ranges overlap on
`[1000, 1500)`. -/
theorem c9_overlapping_device_accepted :
    add_memory_device [c9_dram] c9_flash = some [c9_dram, c9_flash] ∧
    ranges_overlap c9_dram c9_flash ∧
    c9_dram.mem_type.toNat > MemoryDeviceType.LLCACHE.toNat ∧
    c9_flash.mem_type.toNat > MemoryDeviceType.LLCACHE.toNat := by
  constructor
  · rfl
  · refine ⟨?_, by decide, by decide⟩
    show max 1000 500 < min 2000 1500
    decide

/-- C9 (amended): `add_memory_device` rejects exactly when the new
device's type duplicates a registered one, is below `L2CACHE`, or is a
mapped type (above `LLCACHE`) whose *start* address lies within the
inclusive range `[start, end]` of some registered mapped device.
Overlap in the other direction — the new range beginning before an
existing device's start — is not rejected, so the mapped ranges are not
guaranteed pairwise disjoint. -/
theorem c9_rejection_characterisation (memmap : List MemDev) (d : MemDev) :
    add_memory_device memmap d = none ↔
      ((∃ m ∈ memmap, m.mem_type = d.mem_type) ∨
       d.mem_type.toNat < MemoryDeviceType.L2CACHE.toNat ∨
       (d.mem_type.toNat > MemoryDeviceType.LLCACHE.toNat ∧
        ∃ m ∈ memmap, m.mem_type.toNat > MemoryDeviceType.LLCACHE.toNat ∧
          m.start_address ≤ d.start_address ∧ d.start_address ≤ m.end_address)) := by
  unfold add_memory_device
  by_cases h1 : ∃ m ∈ memmap, m.mem_type = d.mem_type
  · rw [if_pos h1]
    simp [h1]
  · rw [if_neg h1]
    by_cases h2 : d.mem_type.toNat < MemoryDeviceType.L2CACHE.toNat
    · rw [if_pos h2]
      simp [h1, h2]
    · rw [if_neg h2]
      by_cases h3 : d.mem_type.toNat > MemoryDeviceType.LLCACHE.toNat ∧
          ∃ m ∈ memmap, m.mem_type.toNat > MemoryDeviceType.LLCACHE.toNat ∧
            d.start_address ≥ m.start_address ∧ d.start_address ≤ m.end_address
      · rw [if_pos h3]
        simp only [ge_iff_le] at h3
        simp [h1, h2, h3]
      · rw [if_neg h3]
        simp only [ge_iff_le] at h3
        simp [h1, h2, h3]

/-! ## UART0 device (src/rv32i_baremetal/uart.rs)

`UART::send_data_request` prints the whole data vector of a WRITE to
`start_address + 0x4` and answers `Valid`; the printed bytes are
returned alongside the response.  Any other WRITE fails the source's
assertion and every READ hits an explicit panic, both modelled as
`none`. -/

inductive MemoryRequestType where
  | READ : MemoryRequestType
  | WRITE : MemoryRequestType
  deriving DecidableEq

structure UartRequest where
  request_type : MemoryRequestType
  data_address : Nat
  data_size : Nat
  data : Option (List Nat)
  deriving DecidableEq

def uart_send_data_request (start_address : Nat) (request : UartRequest) :
    Option (List Nat × MemoryResponse) :=
  match request.request_type with
  | .WRITE =>
      if request.data_address = start_address + 4 ∧ request.data.isSome then
        some (request.data.getD [], ⟨[], .Valid⟩)
      else none
  | .READ => none

/-- C10: a UART WRITE returns `Valid` and prints the whole data vector
(independently of the requested `data_size`) exactly when it addresses
`start_address + 0x4` with data present; any other WRITE, and every
READ, panics (`none`). -/
theorem c10_uart_write_characterisation (s : Nat) (req : UartRequest) :
    (∀ d : List Nat,
        uart_send_data_request s req = some (d, ⟨[], .Valid⟩) ↔
          (req.request_type = .WRITE ∧ req.data_address = s + 4 ∧ req.data = some d)) ∧
    (∀ sz : Nat,
        uart_send_data_request s ⟨req.request_type, req.data_address, sz, req.data⟩ =
          uart_send_data_request s req) ∧
    (req.request_type = .READ → uart_send_data_request s req = none) ∧
    (req.request_type = .WRITE → req.data_address ≠ s + 4 →
        uart_send_data_request s req = none) ∧
    (req.request_type = .WRITE → req.data = none →
        uart_send_data_request s req = none) := by
  obtain ⟨t, a, sz0, dat⟩ := req
  refine ⟨?_, ?_, ?_, ?_, ?_⟩
  · intro d
    cases t with
    | READ => simp [uart_send_data_request]
    | WRITE =>
        cases dat with
        | none => simp [uart_send_data_request]
        | some d0 =>
            by_cases ha : a = s + 4
            · have hls : uart_send_data_request s ⟨.WRITE, a, sz0, some d0⟩ =
                  some (d0, ⟨[], .Valid⟩) := by
                simp [uart_send_data_request, ha]
              rw [hls]
              constructor
              · intro h
                simp only [Option.some.injEq, Prod.mk.injEq] at h
                exact ⟨rfl, ha, by rw [h.1]⟩
              · rintro ⟨-, -, hd⟩
                simp only [Option.some.injEq] at hd
                rw [hd]
            · simp [uart_send_data_request, ha]
  · intro sz
    cases t <;> rfl
  · intro ht
    rw [show t = .READ from ht]
    rfl
  · intro ht ha
    rw [show t = .WRITE from ht]
    simp [uart_send_data_request, ha]
  · intro ht hd
    rw [show t = .WRITE from ht]
    simp only at hd
    simp [uart_send_data_request, hd]

/-- C10 witness: the characterisation applied to the concrete request
that writes the bytes `"HI\n"` to `0x4060_0004` on the standard memory
map. -/
theorem c10_uart_write_characterisation_witness :
    uart_send_data_request 0x40600000
        ⟨.WRITE, 0x40600004, 1, some [72, 73, 10]⟩ =
      some ([72, 73, 10], ⟨[], .Valid⟩) :=
  ((c10_uart_write_characterisation 0x40600000
      ⟨.WRITE, 0x40600004, 1, some [72, 73, 10]⟩).1 [72, 73, 10]).mpr
    ⟨rfl, rfl, rfl⟩

end RiscvOnRust
